import Mathlib

/-!
# Verification of `generate_finance_mvp_data.py`

A shallow embedding of the finance MVP data generator.  Python floats are
modelled as exact rationals (`ℚ`); Python `round(x, 2)` is modelled as exact
rational rounding to 2 decimal places; all draws from the numpy random
generator are modelled by an abstract `Oracle` indexed by a draw counter
(tick) that is threaded through every stage exactly as the single `rng`
object is threaded through the Python code.  String identifiers that are
injective renderings of numbers (cost-center ids `f"CC{str(i).zfill(4)}"`,
six-digit GL account codes such as `"600000"`) are modelled by the underlying
natural numbers; this is claim-preserving because the source only ever
compares, groups and sorts them, and on the modelled sets the string order
agrees with the numeric order (all GL codes have six digits, all cost-center
ids share the `CC` prefix and zero-padded width for the configured counts).
-/

namespace FinanceMVP

/-- A calendar date, `year`/`month`/`day`. -/
structure Date where
  year : Nat
  month : Nat
  day : Nat
deriving DecidableEq, Repr

/-- Lexicographic order on dates (the order `datetime.date` uses). -/
def Date.le (a b : Date) : Prop :=
  a.year < b.year ∨ (a.year = b.year ∧ (a.month < b.month ∨
    (a.month = b.month ∧ a.day ≤ b.day)))

instance : DecidablePred (fun p : Date × Date => Date.le p.1 p.2) := by
  intro p; unfold Date.le; infer_instance

instance (a b : Date) : Decidable (Date.le a b) := by
  unfold Date.le; infer_instance

/-- Strict lexicographic order on dates. -/
def Date.lt (a b : Date) : Prop := Date.le a b ∧ a ≠ b

instance (a b : Date) : Decidable (Date.lt a b) := by
  unfold Date.lt; infer_instance

/-- Gregorian leap-year test. -/
def isLeap (y : Nat) : Bool := (y % 4 == 0 && y % 100 != 0) || y % 400 == 0

/-- Number of days in month `m` of year `y` (Gregorian). -/
def daysInMonth (y m : Nat) : Nat :=
  if m = 2 then (if isLeap y then 29 else 28)
  else if m = 4 ∨ m = 6 ∨ m = 9 ∨ m = 11 then 30
  else 31

/-- A date is valid when its month is 1..12 and its day fits the month. -/
def Date.Valid (d : Date) : Prop :=
  1 ≤ d.month ∧ d.month ≤ 12 ∧ 1 ≤ d.day ∧ d.day ≤ daysInMonth d.year d.month

instance (d : Date) : Decidable d.Valid := by
  unfold Date.Valid; infer_instance

/-- The absolute month index of a date: `year*12 + (month-1)`.
Used to enumerate the months of `pd.period_range(start, end, freq="M")`. -/
def Date.monthIndex (d : Date) : Nat := d.year * 12 + (d.month - 1)

/-- Decode an absolute month index back to a `(year, month)` pair. -/
def monthOfIndex (n : Nat) : Nat × Nat := (n / 12, n % 12 + 1)

/-- `pd.period_range(start, end, freq="M")`: the list of `(year, month)`
pairs of the calendar months from `start`'s month to `end`'s month,
inclusive; empty when `start`'s month is after `end`'s month. -/
def monthsRange (d1 d2 : Date) : List (Nat × Nat) :=
  if d1.monthIndex ≤ d2.monthIndex then
    (List.range (d2.monthIndex - d1.monthIndex + 1)).map
      (fun i => monthOfIndex (d1.monthIndex + i))
  else []

/-- All calendar days of month `m` of year `y`, in order. -/
def monthDays (y m : Nat) : List Date :=
  (List.range (daysInMonth y m)).map (fun d => ⟨y, m, d + 1⟩)

/-- `pd.date_range(d1, d2, freq="D")`: every calendar day from `d1` to `d2`
inclusive (empty when `d1 > d2`). -/
def dateRange (d1 d2 : Date) : List Date :=
  (monthsRange d1 d2).flatMap
    (fun ym => (monthDays ym.1 ym.2).filter
      (fun d => decide (Date.le d1 d) && decide (Date.le d d2)))

/-- The `Config` dataclass of the generator (floats as exact rationals). -/
structure Config where
  out_dir : String := "finance_mvp_data"
  seed : Nat := 42
  start_date : Date := ⟨2024, 1, 1⟩
  end_date : Date := ⟨2025, 12, 31⟩
  num_cost_centers : Nat := 12
  num_gl_accounts : Nat := 18
  avg_postings_opex_per_month : Nat := 4
  avg_postings_capex_per_month : Nat := 2
  max_postings_per_month : Nat := 14
  base_opex : ℚ := 3000
  base_capex : ℚ := 8000
  over_budget_cost_centers : Nat := 4
  under_budget_cost_centers : Nat := 3
  seasonal_q4_uplift : ℚ := 15/100
  seasonal_summer_uplift : ℚ := 5/100
  sparse_gl_probability : ℚ := 35/100
  spike_probability : ℚ := 3/100
  spike_min : ℚ := 25/100
  spike_max : ℚ := 60/100
deriving DecidableEq, Repr

/-- `round(x, 2)` modelled as exact rounding of a rational to a multiple of
`1/100` (Python rounds the nearest double with banker's rounding; the model
rounds the exact rational, ties half-up — the difference never matters for
the sign and error-bound facts proved below). -/
def round2 (x : ℚ) : ℚ := (round (x * 100) : ℚ) / 100

/-- OPEX/CAPEX account classification. -/
inductive AcctType where
  | OPEX
  | CAPEX
deriving DecidableEq, Repr

/-- A row of the `gl_accounts` dimension table. -/
structure GLRow where
  gl_account : Nat
  gl_name : String
  account_type : AcctType
  gl_group : String
deriving DecidableEq, Repr

/-- A row of the `cost_centers` dimension table (ids as their sequence
numbers; the source renders them as `f"CC{str(i).zfill(4)}"`). -/
structure CostCenterRow where
  cost_center_id : Nat
  cost_center_name : String
  department : String
  manager : String
  parent_cost_center_id : Option Nat
deriving DecidableEq, Repr

/-- A row of the `fiscal_calendar` table. -/
structure CalRow where
  calendar_date : Date
  fiscal_year : Nat
  fiscal_period : Nat
  is_month_end : Bool
deriving DecidableEq, Repr

/-- A row of the `finance_budget` table. -/
structure BudgetRow where
  fiscal_year : Nat
  fiscal_period : Nat
  gl_account : Nat
  cost_center_id : Nat
  budget_amount : ℚ
deriving DecidableEq, Repr

/-- The grain key `(fiscal_year, fiscal_period, gl_account, cost_center_id)`
of a budget row. -/
def budgetKey (r : BudgetRow) : Nat × Nat × Nat × Nat :=
  (r.fiscal_year, r.fiscal_period, r.gl_account, r.cost_center_id)

/-- A row of the `finance_actuals` table. -/
structure ActualRow where
  posting_date : Date
  fiscal_year : Nat
  fiscal_period : Nat
  gl_account : Nat
  cost_center_id : Nat
  actual_amount : ℚ
  document_type : String
deriving DecidableEq, Repr

/-- The abstract random oracle standing for the single seeded
`np.random.Generator`.  Every call the Python code makes consumes one tick
`t`; the oracle gives the value of each kind of draw at each tick.
Distributional guarantees of the numpy library (`random()` lands in
`[0, 1)`, `dirichlet` returns a point of the simplex, …) are not baked into
the type; theorems that need them take them as hypotheses. -/
structure Oracle where
  /-- `rng.random()` at tick `t`. -/
  random : Nat → ℚ
  /-- `rng.normal(mean, std)` at tick `t`. -/
  normal : Nat → ℚ → ℚ → ℚ
  /-- `rng.uniform(lo, hi)` at tick `t`. -/
  uniform : Nat → ℚ → ℚ → ℚ
  /-- `rng.poisson(lam)` at tick `t`. -/
  poisson : Nat → Nat → Nat
  /-- index drawn by a scalar `rng.choice(xs)` at tick `t`. -/
  choice1 : Nat → Nat
  /-- indices drawn by `rng.choice(xs, size=n, replace=True)` at tick `t`
  (the embedding uses the first `n` of them). -/
  choiceIdxs : Nat → Nat → Nat
  /-- `rng.dirichlet(np.ones(n))` at tick `t`. -/
  dirichlet : Nat → Nat → List ℚ
  /-- ids picked by `rng.choice(pool, size=k, replace=False)` at tick `t`. -/
  subset : Nat → List Nat → Nat → List Nat

deriving instance DecidableEq for Except

/-- Pick an element of a list by oracle index (numpy `choice` only ever
returns an element of the array; the modulus makes the model total without
changing any reachable behaviour). -/
def pick {α : Type} [Inhabited α] (xs : List α) (i : Nat) : α :=
  xs.getD (i % xs.length) default

instance : Inhabited Date := ⟨⟨0, 0, 0⟩⟩

/-- The exceptions the Python script can raise. -/
inductive PyErr where
  | valueError (msg : String)
  | assertionError (msg : String)
  | typeError (msg : String)
  | keyError (msg : String)
deriving DecidableEq, Repr

/-! ## `make_dimensions` -/

/-- The static `departments` literal. -/
def departmentsFull : List String :=
  ["FP&A", "Accounting", "Procurement", "Treasury", "Operations", "Sales Ops",
   "IT Finance", "Corporate", "R&D", "Manufacturing", "Logistics", "Facilities"]

/-- The static `managers` literal. -/
def managersFull : List String :=
  ["A. Patel", "J. Kim", "M. Chen", "S. Rivera", "D. Johnson", "L. Singh",
   "N. Garcia", "K. Brown", "R. Ahmed", "T. Nguyen", "P. Wilson", "E. Martinez"]

/-- The static `gl_defs` catalog (codes as numbers, see the header note). -/
def glDefs : List GLRow :=
  [⟨600000, "Salaries & Wages", .OPEX, "Payroll"⟩,
   ⟨601000, "Benefits", .OPEX, "Payroll"⟩,
   ⟨602000, "Contractors", .OPEX, "Payroll"⟩,
   ⟨610000, "Software & Subscriptions", .OPEX, "IT"⟩,
   ⟨611000, "Cloud Infrastructure", .OPEX, "IT"⟩,
   ⟨620000, "Travel & Entertainment", .OPEX, "G&A"⟩,
   ⟨630000, "Marketing Spend", .OPEX, "Sales"⟩,
   ⟨640000, "Office Supplies", .OPEX, "G&A"⟩,
   ⟨650000, "Rent & Utilities", .OPEX, "Facilities"⟩,
   ⟨660000, "Professional Services", .OPEX, "G&A"⟩,
   ⟨670000, "Training & Education", .OPEX, "G&A"⟩,
   ⟨680000, "Insurance", .OPEX, "G&A"⟩,
   ⟨700000, "Capital Equipment", .CAPEX, "Capex"⟩,
   ⟨701000, "IT Hardware", .CAPEX, "Capex"⟩,
   ⟨702000, "Facility Improvements", .CAPEX, "Capex"⟩,
   ⟨710000, "Depreciation", .OPEX, "G&A"⟩,
   ⟨720000, "Freight & Shipping", .OPEX, "Ops"⟩,
   ⟨730000, "Maintenance", .OPEX, "Facilities"⟩]

/-- `make_dimensions`.  The `cost_centers` DataFrame constructor requires all
columns to have the same length: `cc_ids` always has `num_cost_centers`
entries while `departments`/`managers` are truncations of 12-element
literals, so the constructor raises `ValueError` when
`num_cost_centers > 12` — the embedding keeps that failure path. -/
def make_dimensions (cfg : Config) :
    Except PyErr (List CostCenterRow × List GLRow × List CalRow) :=
  let departments := departmentsFull.take cfg.num_cost_centers
  let cc_ids := (List.range cfg.num_cost_centers).map (· + 1)
  let managers := managersFull.take cfg.num_cost_centers
  if cfg.num_cost_centers ≤ 12 then
    let cost_centers : List CostCenterRow :=
      (cc_ids.zip (departments.zip managers)).map
        (fun x => ⟨x.1, x.2.1 ++ " Cost Center", x.2.1, x.2.2, none⟩)
    let gl_accounts := glDefs.take cfg.num_gl_accounts
    let fiscal_calendar : List CalRow :=
      (dateRange cfg.start_date cfg.end_date).map
        (fun d => ⟨d, d.year, d.month, decide (d.day = daysInMonth d.year d.month)⟩)
    .ok (cost_centers, gl_accounts, fiscal_calendar)
  else .error (.valueError "All arrays must be of the same length")

/-! ## `generate_budget` -/

/-- The sparse-GL literal `["620000", "640000", "670000", "700000",
"701000", "702000"]`. -/
def sparseCodesFull : List Nat := [620000, 640000, 670000, 700000, 701000, 702000]

/-- Cost-center scale `0.8 + (cc_i / max(1, len(cc_ids)-1)) * 0.8`. -/
def ccScale (cc_i ncc : Nat) : ℚ :=
  8/10 + ((cc_i : ℚ) / ((max 1 (ncc - 1) : Nat) : ℚ)) * (8/10)

/-- GL scale `0.6 + (gl_i / max(1, len(gl_rows)-1)) * 1.2`. -/
def glScale (gl_i ngl : Nat) : ℚ :=
  6/10 + ((gl_i : ℚ) / ((max 1 (ngl - 1) : Nat) : ℚ)) * (12/10)

/-- The seasonal multiplier: `1.0`, `+= seasonal_q4_uplift` when the period
is in `[10, 11, 12]`, else `+= seasonal_summer_uplift` when in `[6, 7, 8]`. -/
def seasonalMult (cfg : Config) (fp : Nat) : ℚ :=
  if fp = 10 ∨ fp = 11 ∨ fp = 12 then 1 + cfg.seasonal_q4_uplift
  else if fp = 6 ∨ fp = 7 ∨ fp = 8 then 1 + cfg.seasonal_summer_uplift
  else 1

/-- `base = cfg.base_opex if acct_type == "OPEX" else cfg.base_capex`. -/
def baseAmount (cfg : Config) (ty : AcctType) : ℚ :=
  if ty = .OPEX then cfg.base_opex else cfg.base_capex

/-- The budget amount of one cell given the noise draw:
`round(max(0.0, base * cc_scale * gl_scale * seasonal * noise), 2)`. -/
def budgetAmount (cfg : Config) (ty : AcctType) (cc_i ncc gl_i ngl fp : Nat)
    (noise : ℚ) : ℚ :=
  round2 (max 0 (baseAmount cfg ty * ccScale cc_i ncc * glScale gl_i ngl *
    seasonalMult cfg fp * noise))

/-- The innermost `for gl_i, gl in enumerate(gl_rows)` loop of
`generate_budget`, for a fixed month and cost center, threading the draw
tick.  A sparse GL first consumes a `random()` draw; a cell that is not
skipped consumes a `normal(1.0, 0.08)` draw. -/
def budgetInnerGL (cfg : Config) (o : Oracle) (fy fp cc_i ncc cc : Nat)
    (sparse : List Nat) (ngl : Nat) :
    List (Nat × GLRow) → Nat → List BudgetRow × Nat
  | [], t => ([], t)
  | (gl_i, gl) :: rest, t =>
    if sparse.contains gl.gl_account then
      if o.random t < cfg.sparse_gl_probability then
        budgetInnerGL cfg o fy fp cc_i ncc cc sparse ngl rest (t + 1)
      else
        let noise := o.normal (t + 1) 1 (8/100)
        let row : BudgetRow :=
          ⟨fy, fp, gl.gl_account, cc, budgetAmount cfg gl.account_type cc_i ncc gl_i ngl fp noise⟩
        let rec' := budgetInnerGL cfg o fy fp cc_i ncc cc sparse ngl rest (t + 2)
        (row :: rec'.1, rec'.2)
    else
      let noise := o.normal t 1 (8/100)
      let row : BudgetRow :=
        ⟨fy, fp, gl.gl_account, cc, budgetAmount cfg gl.account_type cc_i ncc gl_i ngl fp noise⟩
      let rec' := budgetInnerGL cfg o fy fp cc_i ncc cc sparse ngl rest (t + 1)
      (row :: rec'.1, rec'.2)

/-- The `for cc_i, cc in enumerate(cc_ids)` loop of `generate_budget`. -/
def budgetPerCC (cfg : Config) (o : Oracle) (fy fp ncc : Nat)
    (sparse : List Nat) (glRows : List (Nat × GLRow)) (ngl : Nat) :
    List (Nat × Nat) → Nat → List BudgetRow × Nat
  | [], t => ([], t)
  | (cc_i, cc) :: rest, t =>
    let r1 := budgetInnerGL cfg o fy fp cc_i ncc cc sparse ngl glRows t
    let r2 := budgetPerCC cfg o fy fp ncc sparse glRows ngl rest r1.2
    (r1.1 ++ r2.1, r2.2)

/-- The `for p in months` loop of `generate_budget`. -/
def budgetPerMonth (cfg : Config) (o : Oracle) (ccIds : List Nat)
    (sparse : List Nat) (glRows : List GLRow) :
    List (Nat × Nat) → Nat → List BudgetRow × Nat
  | [], t => ([], t)
  | (fy, fp) :: rest, t =>
    let r1 := budgetPerCC cfg o fy fp ccIds.length sparse glRows.enum
      glRows.length ccIds.enum t
    let r2 := budgetPerMonth cfg o ccIds sparse glRows rest r1.2
    (r1.1 ++ r2.1, r2.2)

/-- The list `budget_rows` that `generate_budget` builds before the
duplicate check. -/
def budget_rows (cfg : Config) (o : Oracle) (t : Nat)
    (cost_centers : List CostCenterRow) (gl_accounts : List GLRow) :
    List BudgetRow × Nat :=
  let months := monthsRange cfg.start_date cfg.end_date
  let sparse := sparseCodesFull.filter
    (fun c => (gl_accounts.map GLRow.gl_account).contains c)
  let cc_ids := cost_centers.map CostCenterRow.cost_center_id
  budgetPerMonth cfg o cc_ids sparse gl_accounts months t

/-- `generate_budget`: build the rows, then raise `ValueError` when the
grain `(fiscal_year, fiscal_period, gl_account, cost_center_id)` has
duplicates (`budget.duplicated(...).sum()` is nonzero), else return them. -/
def generate_budget (cfg : Config) (o : Oracle) (t : Nat)
    (cost_centers : List CostCenterRow) (gl_accounts : List GLRow) :
    Except PyErr (List BudgetRow × Nat) :=
  let r := budget_rows cfg o t cost_centers gl_accounts
  if (r.1.map budgetKey).Nodup then .ok r
  else .error (.valueError "Budget grain not unique")

/-! ## `generate_actuals` -/

/-- The `doc_types` literal. -/
def docTypes : List String := ["SA", "KR", "RE", "AB", "KA"]

/-- Lexicographic comparison of budget grain keys (the ascending group-key
order `pandas.groupby` emits; on the modelled data the numeric order agrees
with the string order of the source, see the header note). -/
def keyLe (a b : Nat × Nat × Nat × Nat) : Bool :=
  decide (a.1 < b.1 ∨ (a.1 = b.1 ∧ (a.2.1 < b.2.1 ∨ (a.2.1 = b.2.1 ∧
    (a.2.2.1 < b.2.2.1 ∨ (a.2.2.1 = b.2.2.1 ∧ a.2.2.2 ≤ b.2.2.2))))))

/-- Insert into a sorted list (helper of `insSort`). -/
def insSorted {α : Type} (le : α → α → Bool) (x : α) : List α → List α
  | [] => [x]
  | y :: ys => if le x y then x :: y :: ys else y :: insSorted le x ys

/-- Insertion sort (structurally recursive stand-in for the sorts the
source performs via `sorted` and `groupby`; on the duplicate-free key lists
it is applied to, any sort yields the same list). -/
def insSort {α : Type} (le : α → α → Bool) : List α → List α
  | [] => []
  | x :: xs => insSorted le x (insSort le xs)

/-- `budget.groupby([grain], as_index=False)["budget_amount"].sum()`:
one row per distinct grain key, amounts summed, keys in ascending order. -/
def groupbySum (rows : List BudgetRow) : List BudgetRow :=
  let ks := insSort keyLe ((rows.map budgetKey).dedup)
  ks.map (fun k =>
    ⟨k.1, k.2.1, k.2.2.1, k.2.2.2,
     ((rows.filter (fun r => budgetKey r = k)).map BudgetRow.budget_amount).sum⟩)

/-- The `dates_by_period` dictionary: the calendar days of `(fy, fp)` when
that month belongs to `period_range(start_date, end_date)` (the whole
calendar month, not clipped to the configured day range), else a missing
key. -/
def datesByPeriod (cfg : Config) (fy fp : Nat) : Option (List Date) :=
  if (fy, fp) ∈ monthsRange cfg.start_date cfg.end_date then
    some (monthDays fy fp)
  else none

/-- `gl_type = dict(zip(gl_accounts["gl_account"], gl_accounts["account_type"]))`
followed by `gl_type.get(gl)`. -/
def glTypeLookup (gl_accounts : List GLRow) (gl : Nat) : Option AcctType :=
  (gl_accounts.find? (fun g => g.gl_account == gl)).map GLRow.account_type

/-- The per-cell multiplier: `normal(1.0, 0.12)`, `+0.08` for an
over-budget cost center, `-0.07` for an under-budget one, plus a
`uniform(spike_min, spike_max)` boost when `random() < spike_probability`.
Returns the multiplier and the next tick (the spike branch consumes one
extra draw). -/
def cellMult (cfg : Config) (o : Oracle) (t cc : Nat)
    (overCC underCC : List Nat) : ℚ × Nat :=
  let m0 := o.normal t 1 (12/100)
  let m1 := if overCC.contains cc then m0 + 8/100 else m0
  let m2 := if underCC.contains cc then m1 - 7/100 else m1
  if o.random (t + 1) < cfg.spike_probability then
    (m2 + o.uniform (t + 2) cfg.spike_min cfg.spike_max, t + 3)
  else (m2, t + 2)

/-- `target_actual = max(0.0, bud * mult)`. -/
def cellTarget (bud mult : ℚ) : ℚ := max 0 (bud * mult)

/-- `int(np.clip(rng.poisson(lam), 1, cfg.max_postings_per_month))`
(`np.clip` applies the lower bound first, then the upper bound). -/
def clipCount (cfg : Config) (p : Nat) : Nat :=
  min (max p 1) cfg.max_postings_per_month

/-- The body of the `for _, row in budget_g.iterrows()` loop for one budget
cell: multiplier, target, Poisson posting count, dates drawn from the
month's days, Dirichlet split of the target, one document-type draw per
posting.  Fails with `KeyError` when the cell's `(fy, fp)` is not a key of
`dates_by_period`. -/
def actualsCell (cfg : Config) (o : Oracle) (gl_accounts : List GLRow)
    (overCC underCC : List Nat) (r : BudgetRow) (t : Nat) :
    Except PyErr (List ActualRow × Nat) :=
  let fy := r.fiscal_year
  let fp := r.fiscal_period
  let gl := r.gl_account
  let cc := r.cost_center_id
  let bud := r.budget_amount
  let m := cellMult cfg o t cc overCC underCC
  let target := cellTarget bud m.1
  let lam := if glTypeLookup gl_accounts gl = some .OPEX then
    cfg.avg_postings_opex_per_month else cfg.avg_postings_capex_per_month
  let n := clipCount cfg (o.poisson m.2 lam)
  match datesByPeriod cfg fy fp with
  | none => .error (.keyError "dates_by_period")
  | some dates =>
    let weights := o.dirichlet (m.2 + 2) n
    let nrows := min n weights.length
    let rows := (List.range nrows).map (fun j =>
      ⟨pick dates (o.choiceIdxs (m.2 + 1) j), fy, fp, gl, cc,
       round2 (target * weights.getD j 0),
       pick docTypes (o.choice1 (m.2 + 3 + j))⟩)
    .ok (rows, m.2 + 3 + nrows)

/-- The `for _, row in budget_g.iterrows()` loop. -/
def actualsLoop (cfg : Config) (o : Oracle) (gl_accounts : List GLRow)
    (overCC underCC : List Nat) :
    List BudgetRow → Nat → Except PyErr (List ActualRow × Nat)
  | [], t => .ok ([], t)
  | r :: rest, t =>
    match actualsCell cfg o gl_accounts overCC underCC r t with
    | .error e => .error e
    | .ok (rows1, t1) =>
      match actualsLoop cfg o gl_accounts overCC underCC rest t1 with
      | .error e => .error e
      | .ok (rows2, t2) => .ok (rows1 ++ rows2, t2)

/-- `over_budget_cc`: `rng.choice(cc_ids, size=min(over_budget_cost_centers,
len(cc_ids)), replace=False)` over the sorted distinct cost-center ids of
the budget. -/
def overCohort (cfg : Config) (o : Oracle) (t : Nat)
    (budget : List BudgetRow) : List Nat :=
  let cc_ids := insSort (fun a b => Nat.ble a b)
    ((budget.map BudgetRow.cost_center_id).dedup)
  o.subset t cc_ids (min cfg.over_budget_cost_centers cc_ids.length)

/-- `under_budget_cc`: drawn from the cost centers remaining after the
over-budget cohort is removed. -/
def underCohort (cfg : Config) (o : Oracle) (t : Nat)
    (budget : List BudgetRow) : List Nat :=
  let cc_ids := insSort (fun a b => Nat.ble a b)
    ((budget.map BudgetRow.cost_center_id).dedup)
  let overCC := o.subset t cc_ids (min cfg.over_budget_cost_centers cc_ids.length)
  let remaining := cc_ids.filter (fun c => ¬ overCC.contains c)
  o.subset (t + 1) remaining (min cfg.under_budget_cost_centers remaining.length)

/-- `generate_actuals`: pick the over- and under-budget cost-center
cohorts, group the budget at the grain, then run the per-cell loop. -/
def generate_actuals (cfg : Config) (o : Oracle) (t : Nat)
    (budget : List BudgetRow) (gl_accounts : List GLRow) :
    Except PyErr (List ActualRow × Nat) :=
  let overCC := overCohort cfg o t budget
  let underCC := underCohort cfg o t budget
  let budget_g := groupbySum budget
  actualsLoop cfg o gl_accounts overCC underCC budget_g (t + 2)

/-! ## `validate` -/

/-- Minimum of a list of dates (`Series.min()`); `none` on an empty list
(where pandas yields `NaN`/`NaT`). -/
def minDateList : List Date → Option Date
  | [] => none
  | d :: ds => some (ds.foldl (fun a b => if Date.le a b then a else b) d)

/-- Maximum of a list of dates (`Series.max()`); `none` on an empty list. -/
def maxDateList : List Date → Option Date
  | [] => none
  | d :: ds => some (ds.foldl (fun a b => if Date.le b a then a else b) d)

/-- `validate`: the assertion pass, in source order.  Each date-range check
is `actuals[...].min() >= fiscal_calendar[...].min().date()` (resp. `max`,
`<=`): Python first evaluates the left operand (`NaN` on an empty actuals
table, no exception yet), then the right operand — and on an empty calendar
`NaT.date()` raises `ValueError("NaTType does not support date")` before
any comparison happens — and only then compares, where `NaN >= date`
raises the float/date `TypeError`.  The embedding keeps that evaluation
order: an empty calendar yields the `ValueError`, otherwise an empty
actuals table yields the `TypeError`; neither is an `AssertionError`. -/
def validate (cost_centers : List CostCenterRow) (gl_accounts : List GLRow)
    (fiscal_calendar : List CalRow) (budget : List BudgetRow)
    (actuals : List ActualRow) : Except PyErr Unit :=
  let ccDim := cost_centers.map CostCenterRow.cost_center_id
  let glDim := gl_accounts.map GLRow.gl_account
  if ¬ (budget.map BudgetRow.cost_center_id).all (fun c => ccDim.contains c) then
    .error (.assertionError "budget cost centers")
  else if ¬ (actuals.map ActualRow.cost_center_id).all (fun c => ccDim.contains c) then
    .error (.assertionError "actuals cost centers")
  else if ¬ (budget.map BudgetRow.gl_account).all (fun g => glDim.contains g) then
    .error (.assertionError "budget gl accounts")
  else if ¬ (actuals.map ActualRow.gl_account).all (fun g => glDim.contains g) then
    .error (.assertionError "actuals gl accounts")
  else
    match minDateList (fiscal_calendar.map CalRow.calendar_date) with
    | none => .error (.valueError "NaTType does not support date")
    | some cmin =>
      match minDateList (actuals.map ActualRow.posting_date) with
      | none => .error (.typeError "'>=' not supported between instances of 'float' and 'datetime.date'")
      | some amin =>
        if ¬ Date.le cmin amin then .error (.assertionError "posting_date min")
        else
          match maxDateList (fiscal_calendar.map CalRow.calendar_date) with
          | none => .error (.valueError "NaTType does not support date")
          | some cmax =>
            match maxDateList (actuals.map ActualRow.posting_date) with
            | none => .error (.typeError "'<=' not supported between instances of 'float' and 'datetime.date'")
            | some amax =>
              if ¬ Date.le amax cmax then .error (.assertionError "posting_date max")
              else if ¬ (budget.map budgetKey).Nodup then
                .error (.assertionError "budget grain uniqueness")
              else if ¬ budget.all (fun r => decide (0 ≤ r.budget_amount)) then
                .error (.assertionError "budget amounts non-negative")
              else .ok ()

/-! ## `main` and the filesystem trace -/

/-- A filesystem side effect of `main`. -/
inductive FsOp where
  | mkdirp (dir : String)
  | write (path : String)
deriving DecidableEq, Repr

/-- The five in-memory tables. -/
structure Tables where
  cost_centers : List CostCenterRow
  gl_accounts : List GLRow
  fiscal_calendar : List CalRow
  budget : List BudgetRow
  actuals : List ActualRow
deriving DecidableEq, Repr

/-- Modelled from the spec: `np.random.default_rng(cfg.seed)` is numpy
library code, not part of this repository.  The spec requires only that all
draws flow from "a single seeded pseudo-random generator instance", i.e.
that the generator is a deterministic function of the seed; the model makes
every draw a simple deterministic function of the seed and the tick. -/
def mkRng (seed : Nat) : Oracle where
  random := fun t => (((seed + t) % 97 : Nat) : ℚ) / 97
  normal := fun t mean std => mean + std * ((((seed + t) % 7 : Nat) : ℚ) - 3) / 3
  uniform := fun _ lo _ => lo
  poisson := fun t lam => (seed + t + lam) % (2 * lam + 1)
  choice1 := fun t => seed + t
  choiceIdxs := fun t j => seed + t + j
  dirichlet := fun _ n => if n = 0 then [] else (1 : ℚ) :: List.replicate (n - 1) 0
  subset := fun _ pool k => pool.take k

/-- The generation-and-validation part of `main`, after `os.makedirs` and
`default_rng`: dimensions, budget, actuals, validate, in order, any raised
exception propagating. -/
def runGen (cfg : Config) (o : Oracle) : Except PyErr Tables :=
  match make_dimensions cfg with
  | .error e => .error e
  | .ok (ccs, gls, cal) =>
    match generate_budget cfg o 0 ccs gls with
    | .error e => .error e
    | .ok (budget, t1) =>
      match generate_actuals cfg o t1 budget gls with
      | .error e => .error e
      | .ok (actuals, _) =>
        match validate ccs gls cal budget actuals with
        | .error e => .error e
        | .ok _ => .ok ⟨ccs, gls, cal, budget, actuals⟩

/-- One full run of the generator on a configuration (the tables `main`
holds right before writing the CSV files). -/
def run_pipeline (cfg : Config) : Except PyErr Tables :=
  runGen cfg (mkRng cfg.seed)

/-- The five output paths, in write order. -/
def outFiles (cfg : Config) : List String :=
  [cfg.out_dir ++ "/cost_centers.csv",
   cfg.out_dir ++ "/gl_accounts.csv",
   cfg.out_dir ++ "/fiscal_calendar.csv",
   cfg.out_dir ++ "/finance_budget.csv",
   cfg.out_dir ++ "/finance_actuals.csv"]

/-- The filesystem trace and exit status of `main` under the `__main__`
handler: `os.makedirs(cfg.out_dir, exist_ok=True)` runs first; the five CSV
writes happen only after generation and validation succeed; an exception
reaches the handler, which reports it on stderr and exits nonzero
(modelled as the `.error` outcome). -/
def main_fs (cfg : Config) : List FsOp × Except PyErr Unit :=
  match runGen cfg (mkRng cfg.seed) with
  | .error e => ([FsOp.mkdirp cfg.out_dir], .error e)
  | .ok _ => (FsOp.mkdirp cfg.out_dir :: (outFiles cfg).map FsOp.write, .ok ())

/-! ## Helper lemmas -/

theorem round2_nonneg {x : ℚ} (hx : 0 ≤ x) : 0 ≤ round2 x := by
  unfold round2
  have h1 : (0 : ℤ) ≤ round (x * 100) := by
    rw [round_eq]
    exact Int.le_floor.mpr (by push_cast; linarith)
  have h2 : (0 : ℚ) ≤ (round (x * 100) : ℚ) := by exact_mod_cast h1
  linarith

theorem round2_err (x : ℚ) : |round2 x - x| ≤ 1 / 200 := by
  unfold round2
  have h := abs_sub_round (x * 100)
  rw [abs_sub_comm] at h
  have he : (round (x * 100) : ℚ) / 100 - x = ((round (x * 100) : ℚ) - x * 100) / 100 := by
    ring
  rw [he, abs_div]
  rw [show |(100 : ℚ)| = 100 by norm_num]
  linarith

theorem budgetAmount_nonneg (cfg : Config) (ty : AcctType)
    (cc_i ncc gl_i ngl fp : Nat) (noise : ℚ) :
    0 ≤ budgetAmount cfg ty cc_i ncc gl_i ngl fp noise :=
  round2_nonneg (le_max_left 0 _)

theorem budgetInnerGL_mem (cfg : Config) (o : Oracle) (fy fp cc_i ncc cc : Nat)
    (sparse : List Nat) (ngl : Nat) :
    ∀ (gls : List (Nat × GLRow)) (t : Nat) (r : BudgetRow),
      r ∈ (budgetInnerGL cfg o fy fp cc_i ncc cc sparse ngl gls t).1 →
      r.fiscal_year = fy ∧ r.fiscal_period = fp ∧ r.cost_center_id = cc ∧
      ∃ p ∈ gls, r.gl_account = p.2.gl_account ∧ ∃ tick,
        r.budget_amount = budgetAmount cfg p.2.account_type cc_i ncc p.1 ngl fp
          (o.normal tick 1 (8/100)) := by
  intro gls
  induction gls with
  | nil => intro t r h; simp [budgetInnerGL] at h
  | cons p rest ih =>
    intro t r h
    obtain ⟨gl_i, gl⟩ := p
    simp only [budgetInnerGL] at h
    split at h
    · split at h
      · obtain ⟨h1, h2, h3, q, hq, h4⟩ := ih _ r h
        exact ⟨h1, h2, h3, q, List.mem_cons_of_mem _ hq, h4⟩
      · rcases List.mem_cons.mp h with h | h
        · subst h
          exact ⟨rfl, rfl, rfl, (gl_i, gl), List.mem_cons_self _ _, rfl, t + 1, rfl⟩
        · obtain ⟨h1, h2, h3, q, hq, h4⟩ := ih _ r h
          exact ⟨h1, h2, h3, q, List.mem_cons_of_mem _ hq, h4⟩
    · rcases List.mem_cons.mp h with h | h
      · subst h
        exact ⟨rfl, rfl, rfl, (gl_i, gl), List.mem_cons_self _ _, rfl, t, rfl⟩
      · obtain ⟨h1, h2, h3, q, hq, h4⟩ := ih _ r h
        exact ⟨h1, h2, h3, q, List.mem_cons_of_mem _ hq, h4⟩

theorem budgetPerCC_mem (cfg : Config) (o : Oracle) (fy fp ncc : Nat)
    (sparse : List Nat) (glRows : List (Nat × GLRow)) (ngl : Nat) :
    ∀ (ccs : List (Nat × Nat)) (t : Nat) (r : BudgetRow),
      r ∈ (budgetPerCC cfg o fy fp ncc sparse glRows ngl ccs t).1 →
      r.fiscal_year = fy ∧ r.fiscal_period = fp ∧
      ∃ c ∈ ccs, r.cost_center_id = c.2 ∧
      ∃ p ∈ glRows, r.gl_account = p.2.gl_account ∧ ∃ tick,
        r.budget_amount = budgetAmount cfg p.2.account_type c.1 ncc p.1 ngl fp
          (o.normal tick 1 (8/100)) := by
  intro ccs
  induction ccs with
  | nil => intro t r h; simp [budgetPerCC] at h
  | cons p rest ih =>
    intro t r h
    obtain ⟨cc_i, cc⟩ := p
    simp only [budgetPerCC] at h
    rcases List.mem_append.mp h with h | h
    · obtain ⟨h1, h2, h3, q, hq, h4⟩ :=
        budgetInnerGL_mem cfg o fy fp cc_i ncc cc sparse ngl glRows t r h
      exact ⟨h1, h2, (cc_i, cc), List.mem_cons_self _ _, h3, q, hq, h4⟩
    · obtain ⟨h1, h2, c, hc, h3, q, hq, h4⟩ := ih _ r h
      exact ⟨h1, h2, c, List.mem_cons_of_mem _ hc, h3, q, hq, h4⟩

theorem budgetPerMonth_mem (cfg : Config) (o : Oracle) (ccIds : List Nat)
    (sparse : List Nat) (glRows : List GLRow) :
    ∀ (months : List (Nat × Nat)) (t : Nat) (r : BudgetRow),
      r ∈ (budgetPerMonth cfg o ccIds sparse glRows months t).1 →
      ∃ c ∈ ccIds.enum, r.cost_center_id = c.2 ∧
      ∃ p ∈ glRows.enum, r.gl_account = p.2.gl_account ∧ ∃ tick,
        r.budget_amount = budgetAmount cfg p.2.account_type c.1 ccIds.length
          p.1 glRows.length r.fiscal_period (o.normal tick 1 (8/100)) := by
  intro months
  induction months with
  | nil => intro t r h; simp [budgetPerMonth] at h
  | cons p rest ih =>
    intro t r h
    obtain ⟨fy, fp⟩ := p
    simp only [budgetPerMonth] at h
    rcases List.mem_append.mp h with h | h
    · obtain ⟨-, h2, c, hc, h3, q, hq, h4⟩ :=
        budgetPerCC_mem cfg o fy fp ccIds.length sparse glRows.enum glRows.length
          ccIds.enum t r h
      exact ⟨c, hc, h3, q, hq, by rw [h2]; exact h4⟩
    · exact ih _ r h

theorem budget_rows_mem (cfg : Config) (o : Oracle) (t : Nat)
    (ccs : List CostCenterRow) (gls : List GLRow) (r : BudgetRow)
    (h : r ∈ (budget_rows cfg o t ccs gls).1) :
    ∃ cc_i gl_i gl tick,
      (ccs.map CostCenterRow.cost_center_id)[cc_i]? = some r.cost_center_id ∧
      gls[gl_i]? = some gl ∧ r.gl_account = gl.gl_account ∧
      r.budget_amount = budgetAmount cfg gl.account_type cc_i ccs.length
        gl_i gls.length r.fiscal_period (o.normal tick 1 (8/100)) := by
  unfold budget_rows at h
  obtain ⟨c, hc, h3, q, hq, hcode, tick, h4⟩ :=
    budgetPerMonth_mem cfg o (ccs.map CostCenterRow.cost_center_id)
      (sparseCodesFull.filter (fun c => (gls.map GLRow.gl_account).contains c)) gls
      (monthsRange cfg.start_date cfg.end_date) t r h
  rw [List.mem_enum_iff_getElem?] at hc hq
  refine ⟨c.1, q.1, q.2, tick, ?_, hq, hcode, ?_⟩
  · rw [hc, h3]
  · rw [h4, List.length_map]

/-! ### Uniqueness of the budget grain -/

/-- The full enumeration of grain keys the budget loops range over. -/
def keyEnum (months : List (Nat × Nat)) (ccs : List (Nat × Nat))
    (gls : List (Nat × GLRow)) : List (Nat × Nat × Nat × Nat) :=
  months.flatMap (fun m => ccs.flatMap
    (fun c => gls.map (fun p => (m.1, m.2, p.2.gl_account, c.2))))

theorem budgetInnerGL_keys_sublist (cfg : Config) (o : Oracle)
    (fy fp cc_i ncc cc : Nat) (sparse : List Nat) (ngl : Nat) :
    ∀ (gls : List (Nat × GLRow)) (t : Nat),
      List.Sublist
        ((budgetInnerGL cfg o fy fp cc_i ncc cc sparse ngl gls t).1.map budgetKey)
        (gls.map (fun p => (fy, fp, p.2.gl_account, cc))) := by
  intro gls
  induction gls with
  | nil => intro t; simp [budgetInnerGL]
  | cons p rest ih =>
    intro t
    obtain ⟨gl_i, gl⟩ := p
    simp only [budgetInnerGL, List.map_cons]
    split
    · split
      · exact List.Sublist.cons _ (ih _)
      · exact List.Sublist.cons₂ _ (ih _)
    · exact List.Sublist.cons₂ _ (ih _)

theorem budgetPerCC_keys_sublist (cfg : Config) (o : Oracle) (fy fp ncc : Nat)
    (sparse : List Nat) (glRows : List (Nat × GLRow)) (ngl : Nat) :
    ∀ (ccs : List (Nat × Nat)) (t : Nat),
      List.Sublist
        ((budgetPerCC cfg o fy fp ncc sparse glRows ngl ccs t).1.map budgetKey)
        (ccs.flatMap (fun c => glRows.map (fun p => (fy, fp, p.2.gl_account, c.2)))) := by
  intro ccs
  induction ccs with
  | nil => intro t; simp [budgetPerCC]
  | cons p rest ih =>
    intro t
    obtain ⟨cc_i, cc⟩ := p
    simp only [budgetPerCC, List.map_append, List.flatMap_cons]
    exact List.Sublist.append
      (budgetInnerGL_keys_sublist cfg o fy fp cc_i ncc cc sparse ngl glRows t)
      (ih _)

theorem budgetPerMonth_keys_sublist (cfg : Config) (o : Oracle)
    (ccIds : List Nat) (sparse : List Nat) (glRows : List GLRow) :
    ∀ (months : List (Nat × Nat)) (t : Nat),
      List.Sublist
        ((budgetPerMonth cfg o ccIds sparse glRows months t).1.map budgetKey)
        (keyEnum months ccIds.enum glRows.enum) := by
  intro months
  induction months with
  | nil => intro t; simp [budgetPerMonth, keyEnum]
  | cons p rest ih =>
    intro t
    obtain ⟨fy, fp⟩ := p
    simp only [budgetPerMonth, List.map_append, keyEnum, List.flatMap_cons]
    exact List.Sublist.append
      (budgetPerCC_keys_sublist cfg o fy fp ccIds.length sparse glRows.enum
        glRows.length ccIds.enum t)
      (ih _)

theorem monthOfIndex_injective : Function.Injective monthOfIndex := by
  intro a b h
  unfold monthOfIndex at h
  have h1 : a / 12 = b / 12 := congrArg Prod.fst h
  have h2 : a % 12 + 1 = b % 12 + 1 := congrArg Prod.snd h
  omega

theorem monthsRange_nodup (d1 d2 : Date) : (monthsRange d1 d2).Nodup := by
  unfold monthsRange
  split
  · apply List.Nodup.map
    · intro a b h
      have := monthOfIndex_injective h
      omega
    · exact List.nodup_range _
  · exact List.nodup_nil

theorem keyEnum_nodup (months : List (Nat × Nat)) (ccs : List (Nat × Nat))
    (gls : List (Nat × GLRow)) (hm : months.Nodup)
    (hc : (ccs.map Prod.snd).Nodup)
    (hg : (gls.map (fun p => p.2.gl_account)).Nodup) :
    (keyEnum months ccs gls).Nodup := by
  unfold keyEnum
  rw [List.nodup_flatMap]
  constructor
  · intro m _
    rw [List.nodup_flatMap]
    constructor
    · intro c _
      have : gls.map (fun p => (m.1, m.2, p.2.gl_account, c.2)) =
          (gls.map (fun p => p.2.gl_account)).map (fun code => (m.1, m.2, code, c.2)) := by
        rw [List.map_map]; rfl
      rw [this]
      apply List.Nodup.map _ hg
      intro a b hab
      simpa using hab
    · have hc' : ccs.Pairwise (fun a b => a.2 ≠ b.2) := List.pairwise_map.mp hc
      apply hc'.imp
      intro c₁ c₂ hne k hk₁ hk₂
      obtain ⟨p₁, _, rfl⟩ := List.mem_map.mp hk₁
      obtain ⟨p₂, _, he⟩ := List.mem_map.mp hk₂
      have h22 := congrArg (fun q : Nat × Nat × Nat × Nat => q.2.2.2) he
      simp only at h22
      exact hne h22.symm
  · have hm' : months.Pairwise (· ≠ ·) := hm
    apply hm'.imp
    intro m₁ m₂ hne k hk₁ hk₂
    have hfst : ∀ (m : Nat × Nat),
        k ∈ ccs.flatMap (fun c => gls.map (fun p => (m.1, m.2, p.2.gl_account, c.2))) →
        k.1 = m.1 ∧ k.2.1 = m.2 := by
      intro m hk
      obtain ⟨c, _, hk⟩ := List.mem_flatMap.mp hk
      obtain ⟨p, _, rfl⟩ := List.mem_map.mp hk
      exact ⟨rfl, rfl⟩
    obtain ⟨h1, h2⟩ := hfst m₁ hk₁
    obtain ⟨h3, h4⟩ := hfst m₂ hk₂
    exact hne (Prod.ext (h1 ▸ h3) (h2 ▸ h4))

theorem budget_rows_keys_nodup (cfg : Config) (o : Oracle) (t : Nat)
    (ccs : List CostCenterRow) (gls : List GLRow)
    (hcc : (ccs.map CostCenterRow.cost_center_id).Nodup)
    (hgl : (gls.map GLRow.gl_account).Nodup) :
    ((budget_rows cfg o t ccs gls).1.map budgetKey).Nodup := by
  unfold budget_rows
  apply List.Sublist.nodup
    (budgetPerMonth_keys_sublist cfg o (ccs.map CostCenterRow.cost_center_id) _ gls _ t)
  apply keyEnum_nodup _ _ _ (monthsRange_nodup _ _)
  · rw [List.enum_map_snd]; exact hcc
  · have : gls.enum.map (fun p => p.2.gl_account) =
        (gls.enum.map Prod.snd).map GLRow.gl_account := by rw [List.map_map]; rfl
    rw [this, List.enum_map_snd]; exact hgl

theorem make_dimensions_cc_nodup (cfg : Config)
    (ccs : List CostCenterRow) (gls : List GLRow) (cal : List CalRow)
    (hdims : make_dimensions cfg = .ok (ccs, gls, cal)) :
    (ccs.map CostCenterRow.cost_center_id).Nodup := by
  unfold make_dimensions at hdims
  split at hdims
  case isFalse => exact absurd hdims (by simp)
  case isTrue hn =>
    simp only [Except.ok.injEq, Prod.mk.injEq] at hdims
    obtain ⟨hc, -, -⟩ := hdims
    subst hc
    rw [List.map_map]
    have hfst : (CostCenterRow.cost_center_id ∘ fun x :
        Nat × String × String => (⟨x.1, x.2.1 ++ " Cost Center", x.2.1, x.2.2, none⟩ :
          CostCenterRow)) = Prod.fst := rfl
    rw [hfst, List.map_fst_zip]
    · exact List.Nodup.map (fun a b h => by omega) (List.nodup_range _)
    · have h1 : ((List.range cfg.num_cost_centers).map (· + 1)).length =
        cfg.num_cost_centers := by simp
      have h2 : (departmentsFull.take cfg.num_cost_centers).length =
          cfg.num_cost_centers := by
        rw [List.length_take]
        have : departmentsFull.length = 12 := by decide
        omega
      have h3 : (managersFull.take cfg.num_cost_centers).length =
          cfg.num_cost_centers := by
        rw [List.length_take]
        have : managersFull.length = 12 := by decide
        omega
      rw [h1, List.length_zip, h2, h3]
      omega

theorem make_dimensions_gl_nodup (cfg : Config)
    (ccs : List CostCenterRow) (gls : List GLRow) (cal : List CalRow)
    (hdims : make_dimensions cfg = .ok (ccs, gls, cal)) :
    (gls.map GLRow.gl_account).Nodup := by
  unfold make_dimensions at hdims
  split at hdims
  case isFalse => exact absurd hdims (by simp)
  case isTrue hn =>
    simp only [Except.ok.injEq, Prod.mk.injEq] at hdims
    obtain ⟨-, hg, -⟩ := hdims
    subst hg
    exact List.Sublist.nodup
      (List.Sublist.map GLRow.gl_account (List.take_sublist _ _))
      (by decide : (glDefs.map GLRow.gl_account).Nodup)

/-- C1: for every configuration whose dimensions build, `generate_budget`
returns a table whose `(fiscal_year, fiscal_period, gl_account,
cost_center_id)` keys are unique, and `generate_budget` raises the
data-integrity `ValueError` exactly when the rows it built contain
duplicate grain keys. -/
theorem generate_budget_unique_grain (cfg : Config) (o : Oracle) (t : Nat)
    (ccs : List CostCenterRow) (gls : List GLRow) (cal : List CalRow)
    (hdims : make_dimensions cfg = .ok (ccs, gls, cal)) :
    (∃ rows t', generate_budget cfg o t ccs gls = .ok (rows, t') ∧
      (rows.map budgetKey).Nodup) ∧
    ∀ (ccs' : List CostCenterRow) (gls' : List GLRow),
      generate_budget cfg o t ccs' gls' =
          .error (.valueError "Budget grain not unique") ↔
        ¬ ((budget_rows cfg o t ccs' gls').1.map budgetKey).Nodup := by
  constructor
  · have hnd : ((budget_rows cfg o t ccs gls).1.map budgetKey).Nodup :=
      budget_rows_keys_nodup cfg o t ccs gls
        (make_dimensions_cc_nodup cfg ccs gls cal hdims)
        (make_dimensions_gl_nodup cfg ccs gls cal hdims)
    refine ⟨(budget_rows cfg o t ccs gls).1, (budget_rows cfg o t ccs gls).2, ?_, hnd⟩
    unfold generate_budget
    rw [if_pos hnd]
  · intro ccs' gls'
    unfold generate_budget
    by_cases h : ((budget_rows cfg o t ccs' gls').1.map budgetKey).Nodup
    · rw [if_pos h]; simp [h]
    · rw [if_neg h]; simp [h]

/-- C3: every emitted budget row's amount is
`max(0, base · cc_scale · gl_scale · seasonal · noise)` rounded to 2
decimals, where the seasonal multiplier is `1 + q4 uplift` for periods
10–12, `1 + summer uplift` for periods 6–8 and exactly `1` otherwise, and
every budget amount is non-negative. -/
theorem budget_amount_spec (cfg : Config) (o : Oracle) (t : Nat)
    (ccs : List CostCenterRow) (gls : List GLRow) :
    (∀ fp, seasonalMult cfg fp =
      if fp = 10 ∨ fp = 11 ∨ fp = 12 then 1 + cfg.seasonal_q4_uplift
      else if fp = 6 ∨ fp = 7 ∨ fp = 8 then 1 + cfg.seasonal_summer_uplift
      else 1) ∧
    ∀ r ∈ (budget_rows cfg o t ccs gls).1,
      0 ≤ r.budget_amount ∧
      ∃ cc_i gl_i gl tick,
        (ccs.map CostCenterRow.cost_center_id)[cc_i]? = some r.cost_center_id ∧
        gls[gl_i]? = some gl ∧ r.gl_account = gl.gl_account ∧
        r.budget_amount =
          round2 (max 0 (baseAmount cfg gl.account_type * ccScale cc_i ccs.length *
            glScale gl_i gls.length * seasonalMult cfg r.fiscal_period *
            o.normal tick 1 (8/100))) := by
  refine ⟨fun fp => rfl, fun r hr => ?_⟩
  obtain ⟨cc_i, gl_i, gl, tick, hcc, hgl, hcode, h⟩ :=
    budget_rows_mem cfg o t ccs gls r hr
  refine ⟨?_, cc_i, gl_i, gl, tick, hcc, hgl, hcode, h⟩
  rw [h]
  exact budgetAmount_nonneg cfg gl.account_type cc_i ccs.length gl_i gls.length
    r.fiscal_period (o.normal tick 1 (8/100))

/-! ### Per-cell lemmas for `generate_actuals` -/

theorem cellTarget_nonneg (bud mult : ℚ) : 0 ≤ cellTarget bud mult :=
  le_max_left 0 _

theorem actualsCell_count (cfg : Config) (o : Oracle) (gls : List GLRow)
    (overCC underCC : List Nat) (r : BudgetRow) (t : Nat)
    (hdir : ∀ s n, (o.dirichlet s n).length = n) :
    ∀ rows t', actualsCell cfg o gls overCC underCC r t = .ok (rows, t') →
      rows.length =
        clipCount cfg (o.poisson (cellMult cfg o t r.cost_center_id overCC underCC).2
          (if glTypeLookup gls r.gl_account = some .OPEX then
            cfg.avg_postings_opex_per_month else cfg.avg_postings_capex_per_month)) := by
  intro rows t' h
  simp only [actualsCell] at h
  split at h
  · exact absurd h (by simp)
  · simp only [Except.ok.injEq, Prod.mk.injEq] at h
    obtain ⟨hrows, -⟩ := h
    subst hrows
    rw [List.length_map, List.length_range, hdir]
    exact Nat.min_self _

theorem actualsCell_mem_amount (cfg : Config) (o : Oracle) (gls : List GLRow)
    (overCC underCC : List Nat) (r : BudgetRow) (t : Nat)
    (hdir : ∀ s n, ∀ w ∈ o.dirichlet s n, 0 ≤ w) :
    ∀ rows t', actualsCell cfg o gls overCC underCC r t = .ok (rows, t') →
      ∀ a ∈ rows, ∃ w, 0 ≤ w ∧
        a.actual_amount = round2 (cellTarget r.budget_amount
          (cellMult cfg o t r.cost_center_id overCC underCC).1 * w) := by
  intro rows t' h a ha
  simp only [actualsCell] at h
  split at h
  · exact absurd h (by simp)
  · simp only [Except.ok.injEq, Prod.mk.injEq] at h
    obtain ⟨hrows, -⟩ := h
    subst hrows
    obtain ⟨j, hj, rfl⟩ := List.mem_map.mp ha
    rw [List.mem_range] at hj
    refine ⟨(o.dirichlet ((cellMult cfg o t r.cost_center_id overCC underCC).2 + 2)
      (clipCount cfg _)).getD j 0, ?_, rfl⟩
    have hjlt : j < (o.dirichlet ((cellMult cfg o t r.cost_center_id overCC underCC).2 + 2)
        (clipCount cfg _)).length := lt_of_lt_of_le hj (Nat.min_le_right _ _)
    rw [List.getD_eq_getElem _ _ hjlt]
    exact hdir _ _ _ (List.getElem_mem hjlt)

theorem actualsLoop_mem (cfg : Config) (o : Oracle) (gls : List GLRow)
    (overCC underCC : List Nat) (P : ActualRow → Prop)
    (hcell : ∀ r t rows t', actualsCell cfg o gls overCC underCC r t = .ok (rows, t') →
      ∀ a ∈ rows, P a) :
    ∀ (bs : List BudgetRow) (t : Nat) rows t',
      actualsLoop cfg o gls overCC underCC bs t = .ok (rows, t') → ∀ a ∈ rows, P a := by
  intro bs
  induction bs with
  | nil =>
    intro t rows t' h a ha
    simp only [actualsLoop, Except.ok.injEq, Prod.mk.injEq] at h
    obtain ⟨hrows, -⟩ := h
    subst hrows
    simp at ha
  | cons b rest ih =>
    intro t rows t' h a ha
    simp only [actualsLoop] at h
    split at h
    · exact absurd h (by simp)
    case _ rows1 t1 hcell1 =>
      split at h
      · exact absurd h (by simp)
      case _ rows2 t2 hrest =>
        simp only [Except.ok.injEq, Prod.mk.injEq] at h
        obtain ⟨hrows, -⟩ := h
        subst hrows
        rcases List.mem_append.mp ha with ha | ha
        · exact hcell b t rows1 t1 hcell1 a ha
        · exact ih t1 rows2 t2 hrest a ha

theorem generate_actuals_mem (cfg : Config) (o : Oracle) (t : Nat)
    (budget : List BudgetRow) (gls : List GLRow) (P : ActualRow → Prop)
    (hcell : ∀ overCC underCC r s rows t',
      actualsCell cfg o gls overCC underCC r s = .ok (rows, t') → ∀ a ∈ rows, P a) :
    ∀ rows t', generate_actuals cfg o t budget gls = .ok (rows, t') → ∀ a ∈ rows, P a := by
  intro rows t' h a ha
  unfold generate_actuals at h
  exact actualsLoop_mem cfg o gls _ _ P (hcell _ _) _ _ rows t' h a ha

/-- C6: every generated actual posting amount is non-negative: the cell
target is `max(0, budget · multiplier)` and each posting amount is that
target times a Dirichlet weight (non-negative by the distribution's
support), rounded to 2 decimals. -/
theorem generate_actuals_nonneg (cfg : Config) (o : Oracle) (t : Nat)
    (budget : List BudgetRow) (gls : List GLRow)
    (hdir : ∀ s n, ∀ w ∈ o.dirichlet s n, 0 ≤ w) :
    ∀ rows t', generate_actuals cfg o t budget gls = .ok (rows, t') →
      ∀ a ∈ rows, 0 ≤ a.actual_amount ∧
        ∃ bud mult w, 0 ≤ w ∧
          a.actual_amount = round2 (cellTarget bud mult * w) := by
  apply generate_actuals_mem
  intro overCC underCC r s rows t' h a ha
  obtain ⟨w, hw, hamt⟩ :=
    actualsCell_mem_amount cfg o gls overCC underCC r s hdir rows t' h a ha
  refine ⟨?_, r.budget_amount, _, w, hw, hamt⟩
  rw [hamt]
  exact round2_nonneg (mul_nonneg (cellTarget_nonneg _ _) hw)

theorem pick_mem {α : Type} [Inhabited α] (xs : List α) (h : xs ≠ []) (i : Nat) :
    pick xs i ∈ xs := by
  unfold pick
  have hl : 0 < xs.length := List.length_pos.mpr h
  have hlt : i % xs.length < xs.length := Nat.mod_lt _ hl
  rw [List.getD_eq_getElem _ _ hlt]
  exact List.getElem_mem hlt

theorem daysInMonth_pos (y m : Nat) : 0 < daysInMonth y m := by
  unfold daysInMonth
  split
  · split <;> omega
  · split <;> omega

theorem monthDays_ne_nil (y m : Nat) : monthDays y m ≠ [] := by
  have h := daysInMonth_pos y m
  unfold monthDays
  intro hc
  have := congrArg List.length hc
  simp only [List.length_map, List.length_range, List.length_nil] at this
  omega

theorem actualsCell_dates (cfg : Config) (o : Oracle) (gls : List GLRow)
    (overCC underCC : List Nat) (r : BudgetRow) (t : Nat) :
    ∀ rows t', actualsCell cfg o gls overCC underCC r t = .ok (rows, t') →
      ∀ a ∈ rows,
        (a.fiscal_year, a.fiscal_period) ∈ monthsRange cfg.start_date cfg.end_date ∧
        a.posting_date ∈ monthDays a.fiscal_year a.fiscal_period := by
  intro rows t' h a ha
  simp only [actualsCell] at h
  split at h
  · exact absurd h (by simp)
  case _ dates heq =>
    simp only [Except.ok.injEq, Prod.mk.injEq] at h
    obtain ⟨hrows, -⟩ := h
    subst hrows
    obtain ⟨j, hj, rfl⟩ := List.mem_map.mp ha
    unfold datesByPeriod at heq
    split at heq
    case isTrue hmem =>
      simp only [Option.some.injEq] at heq
      subst heq
      exact ⟨hmem, pick_mem _ (monthDays_ne_nil _ _) _⟩
    case isFalse => exact absurd heq (by simp)

theorem monthsRange_day_bounds (d1 d2 : Date) (fy fp j : Nat)
    (hm : (fy, fp) ∈ monthsRange d1 d2)
    (hj : j < daysInMonth fy fp)
    (hv1 : d1.Valid) (hv2 : d2.Valid)
    (h1 : d1.day = 1) (h2 : d2.day = daysInMonth d2.year d2.month) :
    Date.le d1 ⟨fy, fp, j + 1⟩ ∧ Date.le ⟨fy, fp, j + 1⟩ d2 := by
  unfold monthsRange at hm
  split at hm
  case isFalse => simp at hm
  case isTrue hle =>
    obtain ⟨i, hi, hfyfp⟩ := List.mem_map.mp hm
    rw [List.mem_range] at hi
    unfold monthOfIndex at hfyfp
    simp only [Prod.mk.injEq] at hfyfp
    obtain ⟨hfy, hfp⟩ := hfyfp
    obtain ⟨hv1a, hv1b, hv1c, hv1d⟩ := hv1
    obtain ⟨hv2a, hv2b, hv2c, hv2d⟩ := hv2
    unfold Date.monthIndex at hle hfy hfp hi
    constructor
    · unfold Date.le
      dsimp only
      omega
    · unfold Date.le
      dsimp only
      by_cases hy : fy = d2.year
      · by_cases hmo : fp = d2.month
        · have hdm : daysInMonth fy fp = daysInMonth d2.year d2.month := by
            rw [hy, hmo]
          omega
        · omega
      · omega

/-- C4 (amended): every generated posting date is drawn from the calendar
days of its row's `(fiscal_year, fiscal_period)`, and provided the
configured range is month-aligned (`start_date` is the first day of its
month and `end_date` the last day of its month) every posting date lies in
`[start_date, end_date]`. -/
theorem actuals_dates_in_range (cfg : Config) (o : Oracle) (t : Nat)
    (budget : List BudgetRow) (gls : List GLRow)
    (hv1 : cfg.start_date.Valid) (hv2 : cfg.end_date.Valid)
    (h1 : cfg.start_date.day = 1)
    (h2 : cfg.end_date.day = daysInMonth cfg.end_date.year cfg.end_date.month) :
    ∀ rows t', generate_actuals cfg o t budget gls = .ok (rows, t') →
      ∀ a ∈ rows,
        a.posting_date ∈ monthDays a.fiscal_year a.fiscal_period ∧
        Date.le cfg.start_date a.posting_date ∧
        Date.le a.posting_date cfg.end_date := by
  apply generate_actuals_mem
  intro overCC underCC r s rows t' h a ha
  obtain ⟨hmem, hd⟩ := actualsCell_dates cfg o gls overCC underCC r s rows t' h a ha
  obtain ⟨j, hj, hdate⟩ := List.mem_map.mp hd
  rw [List.mem_range] at hj
  have hb := monthsRange_day_bounds cfg.start_date cfg.end_date a.fiscal_year
    a.fiscal_period j hmem hj hv1 hv2 h1 h2
  rw [hdate] at hb
  exact ⟨hd, hb.1, hb.2⟩

theorem range_map_getD {α : Type} (ws : List ℚ) (f : ℚ → α) :
    (List.range ws.length).map (fun j => f (ws.getD j 0)) = ws.map f := by
  induction ws with
  | nil => rfl
  | cons w ws ih =>
    rw [List.length_cons, List.range_succ_eq_map, List.map_cons, List.map_map]
    congr 1

theorem sum_round2_err (c : ℚ) (ws : List ℚ) :
    |((ws.map (fun w => round2 (c * w))).sum) - c * ws.sum| ≤
      (ws.length : ℚ) * (1 / 200) := by
  induction ws with
  | nil => simp
  | cons w ws ih =>
    simp only [List.map_cons, List.sum_cons, List.length_cons]
    have h1 := round2_err (c * w)
    have habs : |round2 (c * w) + (ws.map (fun w => round2 (c * w))).sum -
        c * (w + ws.sum)| ≤
        |round2 (c * w) - c * w| +
          |(ws.map (fun w => round2 (c * w))).sum - c * ws.sum| := by
      have he : round2 (c * w) + (ws.map (fun w => round2 (c * w))).sum -
          c * (w + ws.sum) =
          (round2 (c * w) - c * w) +
            ((ws.map (fun w => round2 (c * w))).sum - c * ws.sum) := by ring
      rw [he]
      exact abs_add _ _
    have : ((ws.length + 1 : ℕ) : ℚ) * (1 / 200) =
        1 / 200 + (ws.length : ℚ) * (1 / 200) := by push_cast; ring
    rw [this]
    exact le_trans habs (add_le_add h1 ih)

theorem range_map_actual_amount (target : ℚ) (ws : List ℚ) (g : Nat → Date)
    (fy fp gl cc : Nat) (dt : Nat → String) :
    (((List.range ws.length).map (fun j =>
      (⟨g j, fy, fp, gl, cc, round2 (target * ws.getD j 0), dt j⟩ : ActualRow))).map
        ActualRow.actual_amount) = ws.map (fun w => round2 (target * w)) := by
  rw [List.map_map]
  exact range_map_getD ws (fun w => round2 (target * w))

theorem actualsCell_sum (cfg : Config) (o : Oracle) (gls : List GLRow)
    (overCC underCC : List Nat) (r : BudgetRow) (t : Nat)
    (hmax : 1 ≤ cfg.max_postings_per_month)
    (hlen : ∀ s n, (o.dirichlet s n).length = n)
    (hsum : ∀ s n, 1 ≤ n → (o.dirichlet s n).sum = 1) :
    ∀ rows t', actualsCell cfg o gls overCC underCC r t = .ok (rows, t') →
      |((rows.map ActualRow.actual_amount).sum) -
        cellTarget r.budget_amount (cellMult cfg o t r.cost_center_id overCC underCC).1|
        ≤ (rows.length : ℚ) * (1 / 200) := by
  intro rows t' h
  simp only [actualsCell] at h
  split at h
  · exact absurd h (by simp)
  case _ dates heq =>
    simp only [Except.ok.injEq, Prod.mk.injEq] at h
    obtain ⟨hrows, -⟩ := h
    subst hrows
    have hlen' : (o.dirichlet ((cellMult cfg o t r.cost_center_id overCC underCC).2 + 2)
        (clipCount cfg (o.poisson (cellMult cfg o t r.cost_center_id overCC underCC).2
          (if glTypeLookup gls r.gl_account = some .OPEX then
            cfg.avg_postings_opex_per_month else cfg.avg_postings_capex_per_month)))).length =
        clipCount cfg (o.poisson (cellMult cfg o t r.cost_center_id overCC underCC).2
          (if glTypeLookup gls r.gl_account = some .OPEX then
            cfg.avg_postings_opex_per_month else cfg.avg_postings_capex_per_month)) :=
      hlen _ _
    have hn1 : 1 ≤ clipCount cfg (o.poisson (cellMult cfg o t r.cost_center_id overCC underCC).2
        (if glTypeLookup gls r.gl_account = some .OPEX then
          cfg.avg_postings_opex_per_month else cfg.avg_postings_capex_per_month)) := by
      unfold clipCount
      omega
    have hmin : min (clipCount cfg (o.poisson (cellMult cfg o t r.cost_center_id overCC underCC).2
        (if glTypeLookup gls r.gl_account = some .OPEX then
          cfg.avg_postings_opex_per_month else cfg.avg_postings_capex_per_month)))
        (o.dirichlet ((cellMult cfg o t r.cost_center_id overCC underCC).2 + 2)
          (clipCount cfg (o.poisson (cellMult cfg o t r.cost_center_id overCC underCC).2
            (if glTypeLookup gls r.gl_account = some .OPEX then
              cfg.avg_postings_opex_per_month else cfg.avg_postings_capex_per_month)))).length =
        (o.dirichlet ((cellMult cfg o t r.cost_center_id overCC underCC).2 + 2)
          (clipCount cfg (o.poisson (cellMult cfg o t r.cost_center_id overCC underCC).2
            (if glTypeLookup gls r.gl_account = some .OPEX then
              cfg.avg_postings_opex_per_month else cfg.avg_postings_capex_per_month)))).length := by
      rw [hlen', Nat.min_self]
    rw [hmin, range_map_actual_amount, List.length_map, List.length_range]
    have hws := sum_round2_err (cellTarget r.budget_amount
      (cellMult cfg o t r.cost_center_id overCC underCC).1)
      (o.dirichlet ((cellMult cfg o t r.cost_center_id overCC underCC).2 + 2)
        (clipCount cfg (o.poisson (cellMult cfg o t r.cost_center_id overCC underCC).2
          (if glTypeLookup gls r.gl_account = some .OPEX then
            cfg.avg_postings_opex_per_month else cfg.avg_postings_capex_per_month))))
    rw [hsum _ _ hn1, mul_one] at hws
    exact hws

/-- C5: for every budget cell processed by `generate_actuals`, the number
of postings emitted is the Poisson draw clamped (lower bound first) to
`[1, max_postings_per_month]`; when that interval is non-degenerate the
cell always yields at least one posting. -/
theorem actuals_posting_count_spec (cfg : Config) (o : Oracle) (gls : List GLRow)
    (overCC underCC : List Nat) (r : BudgetRow) (t : Nat)
    (hmax : 1 ≤ cfg.max_postings_per_month)
    (hdirlen : ∀ s n, (o.dirichlet s n).length = n) :
    ∀ rows t', actualsCell cfg o gls overCC underCC r t = .ok (rows, t') →
      rows.length =
        min (max (o.poisson (cellMult cfg o t r.cost_center_id overCC underCC).2
          (if glTypeLookup gls r.gl_account = some .OPEX then
            cfg.avg_postings_opex_per_month else cfg.avg_postings_capex_per_month)) 1)
          cfg.max_postings_per_month ∧
      1 ≤ rows.length ∧ rows.length ≤ cfg.max_postings_per_month := by
  intro rows t' h
  have hc := actualsCell_count cfg o gls overCC underCC r t hdirlen rows t' h
  unfold clipCount at hc
  refine ⟨hc, ?_, ?_⟩ <;> rw [hc] <;> omega

/-! ## Concrete configurations and oracles for witnesses and counterexamples -/

/-- A simple concrete oracle: every draw is the most boring value of its
distribution's support. -/
def oracle0 : Oracle where
  random := fun _ => 0
  normal := fun _ m _ => m
  uniform := fun _ lo _ => lo
  poisson := fun _ _ => 1
  choice1 := fun _ => 0
  choiceIdxs := fun _ _ => 0
  dirichlet := fun _ n => if n = 0 then [] else (1 : ℚ) :: List.replicate (n - 1) 0
  subset := fun _ pool k => pool.take k

/-- The single-cell configuration of §8 of the spec: January 2024, one cost
center, one GL account, no sparse omission. -/
def cfgA : Config :=
  { start_date := ⟨2024, 1, 1⟩, end_date := ⟨2024, 1, 31⟩,
    num_cost_centers := 1, num_gl_accounts := 1, sparse_gl_probability := 0 }

/-- `cfgA` with a start date in the middle of its month. -/
def cfgMis : Config :=
  { start_date := ⟨2024, 1, 15⟩, end_date := ⟨2024, 1, 31⟩,
    num_cost_centers := 1, num_gl_accounts := 1, sparse_gl_probability := 0 }

/-- A configuration with no GL accounts at all (empty budget and actuals). -/
def cfgEmptyGL : Config :=
  { start_date := ⟨2024, 1, 1⟩, end_date := ⟨2024, 1, 31⟩,
    num_cost_centers := 1, num_gl_accounts := 0 }

/-- One month, one cost center, six GL accounts (one of them sparse), and a
sparse-omission probability of 1. -/
def cfgSparse1 : Config :=
  { start_date := ⟨2024, 1, 1⟩, end_date := ⟨2024, 1, 31⟩,
    num_cost_centers := 1, num_gl_accounts := 6, sparse_gl_probability := 1 }

/-- The dimension tables of `cfgA`. -/
def dimsA : List CostCenterRow × List GLRow × List CalRow :=
  (make_dimensions cfgA).toOption.getD ([], [], [])

/-- The cost-center table of `cfgA`, written out. -/
def ccsA : List CostCenterRow := [⟨1, "FP&A Cost Center", "FP&A", "A. Patel", none⟩]

/-- The GL table of `cfgA`, written out. -/
def glsA : List GLRow := [⟨600000, "Salaries & Wages", .OPEX, "Payroll"⟩]

/-- The fiscal calendar of `cfgA`. -/
def calA : List CalRow :=
  (dateRange ⟨2024, 1, 1⟩ ⟨2024, 1, 31⟩).map
    (fun d => ⟨d, d.year, d.month, decide (d.day = daysInMonth d.year d.month)⟩)

instance : Inhabited ActualRow := ⟨⟨⟨0, 0, 0⟩, 0, 0, 0, 0, 0, ""⟩⟩

theorem oracle0_dirichlet_len : ∀ s n, (oracle0.dirichlet s n).length = n := by
  intro s n
  cases n with
  | zero => rfl
  | succ m => simp [oracle0]

theorem oracle0_dirichlet_nonneg : ∀ s n, ∀ w ∈ oracle0.dirichlet s n, 0 ≤ w := by
  intro s n w hw
  cases n with
  | zero => simp [oracle0] at hw
  | succ m =>
    simp only [oracle0, Nat.succ_ne_zero, if_false] at hw
    rcases List.mem_cons.mp hw with h | h
    · rw [h]; norm_num
    · rw [List.eq_of_mem_replicate h]

theorem oracle0_dirichlet_sum : ∀ s n, 1 ≤ n → (oracle0.dirichlet s n).sum = 1 := by
  intro s n hn
  cases n with
  | zero => omega
  | succ m => simp [oracle0, List.sum_replicate]

/-- The budget row generated under `cfgA` and `oracle0`. -/
def budRowA : BudgetRow := ⟨2024, 1, 600000, 1, 1440⟩

/-- The result of `actualsCell` on that row (tick 3, empty cohorts). -/
def cellA : List ActualRow × Nat :=
  (actualsCell cfgA oracle0 dimsA.2.1 [] [] budRowA 3).toOption.getD ([], 0)

theorem actuals_posting_count_spec_witness :
    cellA.1.length =
      min (max (oracle0.poisson (cellMult cfgA oracle0 3 budRowA.cost_center_id [] []).2
        (if glTypeLookup dimsA.2.1 budRowA.gl_account = some .OPEX then
          cfgA.avg_postings_opex_per_month else cfgA.avg_postings_capex_per_month)) 1)
        cfgA.max_postings_per_month ∧
    1 ≤ cellA.1.length ∧ cellA.1.length ≤ cfgA.max_postings_per_month :=
  actuals_posting_count_spec cfgA oracle0 dimsA.2.1 [] [] budRowA 3 (by decide)
    oracle0_dirichlet_len cellA.1 cellA.2 (by decide!)

/-- The actuals generated under `cfgA` and `oracle0` from the single budget
row. -/
def actA : List ActualRow × Nat :=
  (generate_actuals cfgA oracle0 1 [budRowA] dimsA.2.1).toOption.getD ([], 0)

theorem generate_actuals_nonneg_witness :
    0 ≤ (actA.1.getD 0 default).actual_amount ∧
    ∃ bud mult w, 0 ≤ w ∧
      (actA.1.getD 0 default).actual_amount = round2 (cellTarget bud mult * w) :=
  generate_actuals_nonneg cfgA oracle0 1 [budRowA] dimsA.2.1
    oracle0_dirichlet_nonneg actA.1 actA.2 (by decide!) _ (by decide!)

/-- C2: the whole pipeline is a pure function of the configuration — all
randomness flows from the single generator seeded with `cfg.seed` in
`main`, so two independent runs with identical configurations produce
identical tables (and identical filesystem traces). -/
theorem pipeline_deterministic (cfg₁ cfg₂ : Config) (h : cfg₁ = cfg₂) :
    run_pipeline cfg₁ = run_pipeline cfg₂ ∧
    run_pipeline cfg₁ = runGen cfg₁ (mkRng cfg₁.seed) ∧
    main_fs cfg₁ = main_fs cfg₂ := by
  rw [h]
  exact ⟨rfl, rfl, rfl⟩

theorem pipeline_deterministic_witness :
    run_pipeline cfgA = run_pipeline cfgA ∧
    run_pipeline cfgA = runGen cfgA (mkRng cfgA.seed) ∧
    main_fs cfgA = main_fs cfgA :=
  pipeline_deterministic cfgA cfgA rfl

/-- C7: the run is all-or-nothing.  When generation or validation raises,
the filesystem trace contains no table write and the process exits with
failure; on success the trace is exactly the directory creation followed by
the five table writes. -/
theorem main_all_or_nothing (cfg : Config) :
    ((∃ e, runGen cfg (mkRng cfg.seed) = .error e) →
      (∀ p, FsOp.write p ∉ (main_fs cfg).1) ∧ (main_fs cfg).2 ≠ .ok ()) ∧
    ((∃ tb, runGen cfg (mkRng cfg.seed) = .ok tb) →
      (main_fs cfg).1 = FsOp.mkdirp cfg.out_dir :: (outFiles cfg).map FsOp.write ∧
      (main_fs cfg).2 = .ok ()) := by
  unfold main_fs
  cases hr : runGen cfg (mkRng cfg.seed) with
  | error e =>
    refine ⟨fun _ => ⟨fun p hp => ?_, by simp⟩, fun htb => ?_⟩
    · simp at hp
    · obtain ⟨tb, htb⟩ := htb
      exact absurd htb (by simp)
  | ok tb =>
    refine ⟨fun he => ?_, fun _ => ⟨rfl, rfl⟩⟩
    obtain ⟨e, he⟩ := he
    exact absurd he (by simp)

/-- C10: `os.makedirs(out_dir, exist_ok=True)` is the first filesystem
effect of every run, successful or not, and every filesystem effect is
either that directory creation or a write of one of the five table files
inside it. -/
theorem main_fs_frame (cfg : Config) :
    (main_fs cfg).1.head? = some (FsOp.mkdirp cfg.out_dir) ∧
    ∀ op ∈ (main_fs cfg).1, op = FsOp.mkdirp cfg.out_dir ∨
      ∃ p ∈ outFiles cfg, op = FsOp.write p := by
  unfold main_fs
  cases hr : runGen cfg (mkRng cfg.seed) with
  | error e =>
    refine ⟨rfl, fun op hop => ?_⟩
    simp only [List.mem_singleton] at hop
    exact Or.inl hop
  | ok tb =>
    refine ⟨rfl, fun op hop => ?_⟩
    rcases List.mem_cons.mp hop with h | h
    · exact Or.inl h
    · obtain ⟨p, hp, rfl⟩ := List.mem_map.mp h
      exact Or.inr ⟨p, hp, rfl⟩

/-- The tables produced by the pipeline under `cfgSparse1`. -/
def tbSparse : Tables :=
  (run_pipeline cfgSparse1).toOption.getD ⟨[], [], [], [], []⟩

theorem main_all_or_nothing_witness :
    ((∀ p, FsOp.write p ∉ (main_fs cfgEmptyGL).1) ∧
      (main_fs cfgEmptyGL).2 ≠ .ok ()) ∧
    ((main_fs cfgSparse1).1 =
        FsOp.mkdirp cfgSparse1.out_dir :: (outFiles cfgSparse1).map FsOp.write ∧
      (main_fs cfgSparse1).2 = .ok ()) :=
  ⟨(main_all_or_nothing cfgEmptyGL).1
    ⟨PyErr.typeError "'>=' not supported between instances of 'float' and 'datetime.date'",
      by decide!⟩,
   (main_all_or_nothing cfgSparse1).2 ⟨tbSparse, by decide!⟩⟩

theorem main_fs_frame_witness :
    (main_fs cfgEmptyGL).1.head? = some (FsOp.mkdirp cfgEmptyGL.out_dir) ∧
    (FsOp.mkdirp cfgEmptyGL.out_dir = FsOp.mkdirp cfgEmptyGL.out_dir ∨
      ∃ p ∈ outFiles cfgEmptyGL, FsOp.mkdirp cfgEmptyGL.out_dir = FsOp.write p) :=
  ⟨(main_fs_frame cfgEmptyGL).1,
   (main_fs_frame cfgEmptyGL).2 (FsOp.mkdirp cfgEmptyGL.out_dir) (by decide!)⟩

theorem actualsLoop_singleton (cfg : Config) (o : Oracle) (gls : List GLRow)
    (oc uc : List Nat) (r : BudgetRow) (t : Nat) :
    actualsLoop cfg o gls oc uc [r] t =
      match actualsCell cfg o gls oc uc r t with
      | .error e => .error e
      | .ok (rows, t1) => .ok (rows ++ [], t1) := by
  cases hc : actualsCell cfg o gls oc uc r t with
  | error e => simp [actualsLoop, hc]
  | ok p =>
    obtain ⟨rows, t1⟩ := p
    simp [actualsLoop, hc]

theorem groupbySum_singleton (b : BudgetRow) :
    groupbySum [b] = [⟨b.fiscal_year, b.fiscal_period, b.gl_account,
      b.cost_center_id, b.budget_amount⟩] := by
  simp [groupbySum, insSort, insSorted, budgetKey, List.filter]

theorem generate_actuals_singleton_inv (cfg : Config) (o : Oracle) (t : Nat)
    (b : BudgetRow) (gls : List GLRow) (rows : List ActualRow) (t' : Nat)
    (h : generate_actuals cfg o t [b] gls = .ok (rows, t')) :
    ∃ tc, actualsCell cfg o gls (overCohort cfg o t [b]) (underCohort cfg o t [b])
      ⟨b.fiscal_year, b.fiscal_period, b.gl_account, b.cost_center_id,
        b.budget_amount⟩ (t + 2) = .ok (rows, tc) := by
  simp only [generate_actuals] at h
  rw [groupbySum_singleton, actualsLoop_singleton] at h
  split at h
  · exact absurd h (by simp)
  case _ rows1 tc heq =>
    simp only [List.append_nil, Except.ok.injEq, Prod.mk.injEq] at h
    obtain ⟨h1, -⟩ := h
    subst h1
    exact ⟨tc, heq⟩

/-- `oracle0` with a normal draw of `0` (a possible draw of any normal
distribution). -/
def oracleZ : Oracle := { oracle0 with normal := fun _ _ _ => 0 }

/-- The single budget row produced under `cfgA` for an arbitrary oracle. -/
def amtA (o : Oracle) : ℚ :=
  budgetAmount cfgA .OPEX 0 1 0 1 1 (o.normal 0 1 (8/100))

/-- The single budget row of `cfgA` as a function of the oracle. -/
def browA (o : Oracle) : BudgetRow := ⟨2024, 1, 600000, 1, amtA o⟩

/-- C8 (amended): under the single-cell configuration (January 2024, one
cost center, one GL account, no sparse omission) the budget table has
exactly one row, with a non-negative — not necessarily strictly positive —
amount, and the actuals table contains between 1 and
`max_postings_per_month` rows whose amounts sum to the perturbed budget
target `max(0, budget × multiplier)` up to the 2-decimal per-row rounding
(at most 1/200 per row). -/
theorem single_cell_spec (o : Oracle)
    (hlen : ∀ s n, (o.dirichlet s n).length = n)
    (hsum : ∀ s n, 1 ≤ n → (o.dirichlet s n).sum = 1) :
    ∀ ccs gls cal, make_dimensions cfgA = .ok (ccs, gls, cal) →
    ∀ brows t1, generate_budget cfgA o 0 ccs gls = .ok (brows, t1) →
      brows.length = 1 ∧ (∀ r ∈ brows, 0 ≤ r.budget_amount) ∧
      ∀ arows t2, generate_actuals cfgA o t1 brows gls = .ok (arows, t2) →
        1 ≤ arows.length ∧ arows.length ≤ cfgA.max_postings_per_month ∧
        ∀ r ∈ brows,
          |((arows.map ActualRow.actual_amount).sum) -
            cellTarget r.budget_amount
              (cellMult cfgA o (t1 + 2) r.cost_center_id
                (overCohort cfgA o t1 brows) (underCohort cfgA o t1 brows)).1|
            ≤ (arows.length : ℚ) * (1 / 200) := by
  intro ccs gls cal hdims
  have hdims' : make_dimensions cfgA = .ok (ccsA, glsA, calA) := rfl
  rw [hdims'] at hdims
  simp only [Except.ok.injEq, Prod.mk.injEq] at hdims
  obtain ⟨hc, hg, -⟩ := hdims
  subst hc
  subst hg
  intro brows t1 hbud
  have hb : generate_budget cfgA o 0 ccsA glsA = .ok ([browA o], 1) := rfl
  rw [hb] at hbud
  simp only [Except.ok.injEq, Prod.mk.injEq] at hbud
  obtain ⟨hbr, hbt⟩ := hbud
  subst hbr
  subst hbt
  refine ⟨rfl, ?_, ?_⟩
  · intro r hr
    rw [List.mem_singleton] at hr
    subst hr
    exact budgetAmount_nonneg cfgA .OPEX 0 1 0 1 1 (o.normal 0 1 (8/100))
  · intro arows t2 hact
    obtain ⟨tc, hcell⟩ :=
      generate_actuals_singleton_inv cfgA o 1 (browA o) glsA arows t2 hact
    have hcount := actuals_posting_count_spec cfgA o glsA
      (overCohort cfgA o 1 [browA o]) (underCohort cfgA o 1 [browA o]) _ _
      (by decide) hlen arows tc hcell
    refine ⟨hcount.2.1, hcount.2.2, ?_⟩
    intro r hr
    rw [List.mem_singleton] at hr
    subst hr
    have hs := actualsCell_sum cfgA o glsA
      (overCohort cfgA o 1 [browA o]) (underCohort cfgA o 1 [browA o]) _ _
      (by decide) hlen hsum arows tc hcell
    exact hs

/-- Refutes C8 as stated: a normal noise draw of `0` (in the support of the
distribution) makes the single budget row's amount `0`, not positive. -/
theorem single_cell_counterexample :
    (match make_dimensions cfgA with
     | .ok (ccs, gls, _) =>
       match generate_budget cfgA oracleZ 0 ccs gls with
       | .ok (rows, _) => rows.length == 1 && rows.all (fun r => r.budget_amount == 0)
       | .error _ => false
     | .error _ => false) = true := by decide!

/-- The actuals generated from the `cfgA` budget row (small literal GL
table). -/
def actB : List ActualRow × Nat :=
  (generate_actuals cfgA oracle0 1 [browA oracle0] glsA).toOption.getD ([], 0)

theorem single_cell_spec_witness :
    [browA oracle0].length = 1 ∧
    0 ≤ (browA oracle0).budget_amount ∧
    1 ≤ actB.1.length ∧ actB.1.length ≤ cfgA.max_postings_per_month ∧
    |((actB.1.map ActualRow.actual_amount).sum) -
      cellTarget (browA oracle0).budget_amount
        (cellMult cfgA oracle0 (1 + 2) (browA oracle0).cost_center_id
          (overCohort cfgA oracle0 1 [browA oracle0])
          (underCohort cfgA oracle0 1 [browA oracle0])).1|
      ≤ (actB.1.length : ℚ) * (1 / 200) := by
  have h := single_cell_spec oracle0 oracle0_dirichlet_len oracle0_dirichlet_sum
    ccsA glsA calA rfl [browA oracle0] 1 rfl
  have h3 := h.2.2 actB.1 actB.2 (by decide!)
  exact ⟨h.1, h.2.1 _ (by decide!), h3.1, h3.2.1, h3.2.2 _ (by decide!)⟩

/-- C9 (amended): `validate` on an empty actuals table (reachable, e.g.
with an empty GL-account catalog, though not via a sparse probability of 1,
which leaves the non-sparse accounts in place) passes the vacuous
referential checks and then raises an exception that is not one of the
specified assertion failures: with a non-empty calendar, the float/date
`TypeError` from comparing the `NaN` minimum of the empty `posting_date`
column against a date (with an empty calendar the code would instead raise
the `NaT` `ValueError` while evaluating the calendar bound, before any
comparison). -/
theorem validate_empty_actuals (ccs : List CostCenterRow) (gls : List GLRow)
    (cal : List CalRow) (budget : List BudgetRow)
    (hcal : cal ≠ [])
    (hb1 : (budget.map BudgetRow.cost_center_id).all
      (fun c => (ccs.map CostCenterRow.cost_center_id).contains c) = true)
    (hb2 : (budget.map BudgetRow.gl_account).all
      (fun g => (gls.map GLRow.gl_account).contains g) = true) :
    validate ccs gls cal budget [] =
      .error (.typeError
        "'>=' not supported between instances of 'float' and 'datetime.date'") ∧
    run_pipeline cfgEmptyGL =
      .error (.typeError
        "'>=' not supported between instances of 'float' and 'datetime.date'") := by
  constructor
  · simp only [validate]
    rw [if_neg (fun h => h hb1), if_neg (fun h => h rfl),
      if_neg (fun h => h hb2), if_neg (fun h => h rfl)]
    cases cal with
    | nil => exact absurd rfl hcal
    | cons c cs => rfl
  · decide!

/-- Refutes the reachability example in C9 as stated: with a sparse-GL
probability of 1 the budget and actuals stay non-empty, because the
truncated GL catalog always contains non-sparse accounts. -/
theorem sparse_one_nonempty_counterexample :
    (match run_pipeline cfgSparse1 with
     | .ok tb => !tb.budget.isEmpty && !tb.actuals.isEmpty
     | .error _ => false) = true := by decide!

theorem validate_empty_actuals_witness :
    validate ccsA glsA calA [budRowA] [] =
      .error (.typeError
        "'>=' not supported between instances of 'float' and 'datetime.date'") ∧
    run_pipeline cfgEmptyGL =
      .error (.typeError
        "'>=' not supported between instances of 'float' and 'datetime.date'") :=
  validate_empty_actuals ccsA glsA calA [budRowA] (by decide) (by decide) (by decide)

/-- Refutes C4 as stated: under `cfgMis` (whose `start_date` 2024-01-15 is
not the first day of its month) the pipeline generates an actual posting
dated strictly before `start_date`, because posting dates are drawn from
the whole calendar month. -/
theorem actuals_dates_counterexample :
    (match make_dimensions cfgMis with
     | .ok (ccs, gls, _) =>
       match generate_budget cfgMis oracle0 0 ccs gls with
       | .ok (br, t1) =>
         match generate_actuals cfgMis oracle0 t1 br gls with
         | .ok (ar, _) =>
           ar.any (fun a => decide (Date.lt a.posting_date cfgMis.start_date))
         | .error _ => false
       | .error _ => false
     | .error _ => false) = true := by decide!

theorem actuals_dates_in_range_witness :
    (actA.1.getD 0 default).posting_date ∈
      monthDays (actA.1.getD 0 default).fiscal_year (actA.1.getD 0 default).fiscal_period ∧
    Date.le cfgA.start_date (actA.1.getD 0 default).posting_date ∧
    Date.le (actA.1.getD 0 default).posting_date cfgA.end_date :=
  actuals_dates_in_range cfgA oracle0 1 [budRowA] dimsA.2.1 (by decide) (by decide)
    (by decide) (by decide) actA.1 actA.2 (by decide!) _ (by decide!)

theorem generate_budget_unique_grain_witness :
    (∃ rows t', generate_budget cfgA oracle0 0 dimsA.1 dimsA.2.1 = .ok (rows, t') ∧
      (rows.map budgetKey).Nodup) ∧
    ∀ (ccs' : List CostCenterRow) (gls' : List GLRow),
      generate_budget cfgA oracle0 0 ccs' gls' =
          .error (.valueError "Budget grain not unique") ↔
        ¬ ((budget_rows cfgA oracle0 0 ccs' gls').1.map budgetKey).Nodup :=
  generate_budget_unique_grain cfgA oracle0 0 dimsA.1 dimsA.2.1 dimsA.2.2 rfl

theorem budget_amount_spec_witness :
    ((⟨2024, 1, 600000, 1, 1440⟩ : BudgetRow) ∈
      (budget_rows cfgA oracle0 0 ccsA glsA).1) ∧
    (0 ≤ (⟨2024, 1, 600000, 1, 1440⟩ : BudgetRow).budget_amount ∧
      ∃ cc_i gl_i gl tick,
        (ccsA.map CostCenterRow.cost_center_id)[cc_i]? =
          some (⟨2024, 1, 600000, 1, 1440⟩ : BudgetRow).cost_center_id ∧
        glsA[gl_i]? = some gl ∧
        (⟨2024, 1, 600000, 1, 1440⟩ : BudgetRow).gl_account = gl.gl_account ∧
        (⟨2024, 1, 600000, 1, 1440⟩ : BudgetRow).budget_amount =
          round2 (max 0 (baseAmount cfgA gl.account_type * ccScale cc_i ccsA.length *
            glScale gl_i glsA.length *
            seasonalMult cfgA (⟨2024, 1, 600000, 1, 1440⟩ : BudgetRow).fiscal_period *
            oracle0.normal tick 1 (8/100)))) :=
  ⟨by decide!, (budget_amount_spec cfgA oracle0 0 ccsA glsA).2 _ (by decide!)⟩

end FinanceMVP
